import Mathlib

/-!
Verification of the precipitation-monitoring merge pipeline.

This file gives a shallow embedding of the merge / store logic of the
repository (the `PrecipitationDataExtractor.save_precipitation_data`
procedure of `uniao.py`, its summary builder, and the AccuWeather
`WeatherDataExtractor.process_data` / `save_to_excel` path) and proves
the specified properties about it.

Modelling conventions:
* a pandas cell value is a `CellVal` (string, rational number, or boolean);
  a missing cell / NaN is the absence of the column in the row's cells;
* a DataFrame is a `Table`: a column-name list plus a row list;
* python floats are modelled as rationals;
* `pd.to_datetime (data ++ " " ++ hora)` comparisons are modelled by
  lexicographic string comparison of the composite string, which agrees
  with chronological order on the ISO `YYYY-MM-DD` / `HH:MM:SS` formats
  the program produces;
* `DataFrame.sort_values` is modelled by insertion sort on the same key;
* file input is modelled by an explicit state (`FileState` / `AccuFile`)
  recording whether the file is absent, readable, or unparseable;
* code that can raise is modelled with `Except` / `Option` results.
-/

/-- One pandas cell value: a string, a number (floats are modelled as
rationals) or a boolean. -/
inductive CellVal where
  | vStr : String → CellVal
  | vNum : ℚ → CellVal
  | vBool : Bool → CellVal
deriving DecidableEq

/-- One DataFrame row: an association list from column name to cell value.
A column missing from the list models a NaN cell. -/
structure Row where
  cells : List (String × CellVal)
deriving DecidableEq

/-- Value of column `c` in row `r` (`none` models NaN / missing). -/
def Row.get (r : Row) (c : String) : Option CellVal :=
  (r.cells.find? (fun p => p.1 == c)).map Prod.snd

/-- A named DataFrame: column list plus rows. -/
structure Table where
  cols : List String
  rows : List Row
deriving DecidableEq

/-- Column-membership test (`'c' in df.columns`). -/
def Table.hasCol (t : Table) (c : String) : Bool :=
  t.cols.contains c

/-- `pd.concat([a, b], ignore_index=True)`: rows of `a` then rows of `b`,
columns of `a` then the new columns of `b`. -/
def Table.concat (a b : Table) : Table :=
  { cols := a.cols ++ b.cols.filter (fun c => !a.cols.contains c)
    rows := a.rows ++ b.rows }

/-- The dedup key of a row for key columns `ks` (the tuple of values of the
subset columns, as used by `drop_duplicates(subset=ks)`). -/
def keyOf (ks : List String) (r : Row) : List (Option CellVal) :=
  ks.map r.get

/-- String value of the `data` (date) column of a row, if it is a string. -/
def dayKeyStr (r : Row) : Option String :=
  match r.get "data" with
  | some (CellVal.vStr s) => some s
  | _ => none

/-- String value of the `hora` (time-of-day) column of a row. -/
def horaStr (r : Row) : Option String :=
  match r.get "hora" with
  | some (CellVal.vStr s) => some s
  | _ => none

/-- The composite timestamp string `data ++ " " ++ hora` built by the code
as the `datetime_temp` sort column; `none` models NaT. -/
def hourKeyStr (r : Row) : Option String :=
  match dayKeyStr r, horaStr r with
  | some d, some h => some (d ++ " " ++ h)
  | _, _ => none

/-- Sort-key comparison with the pandas `na_position='last'` convention:
`none` (NaT) sorts after every real key. -/
def keyLE (x y : Option String) : Prop :=
  match y, x with
  | none, _ => True
  | some _, none => False
  | some b, some a => a ≤ b

instance : DecidableRel keyLE := fun x y =>
  match x, y with
  | _, none => isTrue trivial
  | none, some _ => isFalse (fun h => h)
  | some a, some b => inferInstanceAs (Decidable (a ≤ b))

instance : IsTotal (Option String) keyLE where
  total := fun x y =>
    match x, y with
    | _, none => Or.inl trivial
    | none, some _ => Or.inr trivial
    | some a, some b => le_total a b

theorem keyLE_trans {x y z : Option String} (hxy : keyLE x y) (hyz : keyLE y z) :
    keyLE x z :=
  match x, y, z, hxy, hyz with
  | _, _, none, _, _ => trivial
  | some _, some _, some _, hab, hbc => le_trans hab hbc
  | none, some _, some _, h, _ => h.elim
  | none, none, some _, _, h => h.elim
  | some _, none, some _, _, h => h.elim

instance : IsTrans (Option String) keyLE where
  trans := fun _ _ _ => keyLE_trans

theorem keyLE_antisymm {x y : Option String} (h1 : keyLE x y) (h2 : keyLE y x) : x = y := by
  match x, y with
  | none, none => rfl
  | some a, none => exact absurd h2 (fun h => h)
  | none, some b => exact absurd h1 (fun h => h)
  | some a, some b => exact congrArg some (le_antisymm h1 h2)

/-- Row comparison by a sort key extractor. -/
def rowLE (f : Row → Option String) (a b : Row) : Prop :=
  keyLE (f a) (f b)

instance (f : Row → Option String) : DecidableRel (rowLE f) := fun a b =>
  inferInstanceAs (Decidable (keyLE (f a) (f b)))

instance (f : Row → Option String) : IsTotal Row (rowLE f) where
  total := fun a b => IsTotal.total (f a) (f b)

instance (f : Row → Option String) : IsTrans Row (rowLE f) where
  trans := fun _ _ _ hab hbc => keyLE_trans hab hbc

/-- Strict row comparison by a sort key extractor. -/
def rowLT (f : Row → Option String) (a b : Row) : Prop :=
  keyLE (f a) (f b) ∧ f a ≠ f b

instance (f : Row → Option String) : IsAntisymm Row (rowLT f) where
  antisymm := fun _ _ hab hba => absurd (keyLE_antisymm hab.1 hba.1) hab.2

/-- `sort_values` on the key `f`, modelled by insertion sort. -/
def sortRows (f : Row → Option String) (l : List Row) : List Row :=
  List.insertionSort (rowLE f) l

/-- `drop_duplicates(subset = ks, keep='last')`: a row survives iff no
later row has the same key tuple. -/
def dropDupKeepLast (ks : List String) : List Row → List Row
  | [] => []
  | r :: rest =>
    if rest.any (fun s => decide (keyOf ks s = keyOf ks r)) then
      dropDupKeepLast ks rest
    else
      r :: dropDupKeepLast ks rest

/-- The final re-sort of the no-key fallback branch of
`save_precipitation_data` (lines 413-420 of `uniao.py`): sort by the
composite timestamp when the combined table has both `data` and `hora`
columns, else by `data` alone, else leave the order untouched. -/
def resort_combined (t : Table) : Table :=
  if t.hasCol "data" && t.hasCol "hora" then
    { t with rows := sortRows hourKeyStr t.rows }
  else if t.hasCol "data" then
    { t with rows := sortRows dayKeyStr t.rows }
  else t

/-- The dedup key columns selected by the branch conditions of
`save_precipitation_data`: `data`+`hora` when both tables carry both
columns, else `data` when both tables carry it, else no key. -/
def merge_keys (existingDf newDf : Table) : Option (List String) :=
  if newDf.hasCol "data" && newDf.hasCol "hora" &&
      existingDf.hasCol "data" && existingDf.hasCol "hora" then
    some ["data", "hora"]
  else if newDf.hasCol "data" && existingDf.hasCol "data" then
    some ["data"]
  else none

/-- The per-sheet combination step of `save_precipitation_data`
(lines 387-424 of `uniao.py`): for a sheet name, the existing table (if
any) and the newly fetched table, produce the combined table. -/
def merge_table (sheetName : String) (existing : Option Table) (newDf : Table) : Table :=
  match existing with
  | none => newDf
  | some existingDf =>
    if existingDf.rows.isEmpty then newDf
    else if sheetName = "Resumo_Precipitacao" then newDf
    else if newDf.hasCol "data" && newDf.hasCol "hora" &&
        existingDf.hasCol "data" && existingDf.hasCol "hora" then
      let c := existingDf.concat newDf
      { c with rows := sortRows hourKeyStr (dropDupKeepLast ["data", "hora"] c.rows) }
    else if newDf.hasCol "data" && existingDf.hasCol "data" then
      let c := existingDf.concat newDf
      { c with rows := sortRows dayKeyStr (dropDupKeepLast ["data"] c.rows) }
    else
      resort_combined (existingDf.concat newDf)

/-- Dictionary lookup in a named table list. -/
def lookupTable (nm : String) : List (String × Table) → Option Table
  | [] => none
  | p :: rest => if p.1 = nm then some p.2 else lookupTable nm rest

/-- The `combined_data` loop of `save_precipitation_data`: one entry per
newly fetched sheet (sheets present only in the existing data are not
carried over). -/
def combine_data (existing newTables : List (String × Table)) : List (String × Table) :=
  newTables.map (fun p => (p.1, merge_table p.1 (lookupTable p.1 existing) p.2))

/-- State of the spreadsheet file: absent, or present with the named
sections, each of which either parses to a table (`some`) or fails to
parse (`none`). -/
inductive FileState where
  | absent
  | present (sections : List (String × Option Table))

/-- The existing-data read of `save_precipitation_data` (lines 370-383 of
`uniao.py`): absent file yields no data; any section parse failure makes
the `except` branch discard everything read so far (`existing_data = {}`). -/
def load_existing : FileState → List (String × Table)
  | FileState.absent => []
  | FileState.present secs =>
    if secs.all (fun p => p.2.isSome) then
      secs.filterMap (fun p => p.2.map (fun t => (p.1, t)))
    else []

/-- The whole merge-and-store cycle of `save_precipitation_data`: combine
the new tables with the loaded existing data (when the file is present)
and write every non-empty combined table; empty tables are skipped. The
result is the list of sheets of the rewritten file. -/
def save_precipitation_data (fs : FileState) (newTables : List (String × Table)) :
    List (String × Table) :=
  (match fs with
   | FileState.absent => newTables
   | FileState.present secs => combine_data (load_existing (FileState.present secs)) newTables
  ).filter (fun p => !p.2.rows.isEmpty)

/-- The chronological-sortedness invariant a table acquires when it goes
through a merge: sorted by the composite timestamp if it has both `data`
and `hora` columns, by `data` if it has only `data`, trivial otherwise. -/
def chron_sorted (t : Table) : Prop :=
  if t.hasCol "data" && t.hasCol "hora" then List.Sorted (rowLE hourKeyStr) t.rows
  else if t.hasCol "data" then List.Sorted (rowLE dayKeyStr) t.rows
  else True

instance (t : Table) : Decidable (chron_sorted t) := by
  unfold chron_sorted
  split
  · exact List.decidableSorted t.rows
  split
  · exact List.decidableSorted t.rows
  · exact inferInstanceAs (Decidable True)

/-- Python `round(x, 2)` on the rational model of floats. -/
def round2 (q : ℚ) : ℚ :=
  (round (q * 100) : ℤ) / 100

/-- Numeric value of the `precipitacao_mm` cell of a row, if any. -/
def precipVal (r : Row) : Option ℚ :=
  match r.get "precipitacao_mm" with
  | some (CellVal.vNum q) => some q
  | _ => none

/-- Maximum of a list of rationals (0 for the empty list, which the code
never hits because the branch requires non-empty data). -/
def maxQ : List ℚ → ℚ
  | [] => 0
  | q :: qs => qs.foldl max q

/-- Minimum of a list of rationals. -/
def minQ : List ℚ → ℚ
  | [] => 0
  | q :: qs => qs.foldl min q

/-- `create_precipitation_summary` (lines 317-351 of `uniao.py`): the
derived statistics table recomputed from the daily table; empty input
yields an empty table. -/
def create_precipitation_summary (df : Table) : Table :=
  if df.rows.isEmpty then { cols := [], rows := [] }
  else
    let precipData := df.rows.filter
      (fun r => match precipVal r with
        | some q => decide (0 < q)
        | none => false)
    let metricNames : List String :=
      ["Dias com dados", "Dias com chuva", "Precipitação total (mm)",
       "Precipitação média (mm)", "Precipitação máxima (mm)", "Precipitação mínima (mm)"]
    let vals : List ℚ :=
      if precipData.isEmpty then
        [(df.rows.length : ℚ), 0, 0, 0, 0, 0]
      else
        let qs := precipData.filterMap precipVal
        [(df.rows.length : ℚ), (precipData.length : ℚ), round2 qs.sum,
         round2 (qs.sum / (qs.length : ℚ)), round2 (maxQ qs), round2 (minQ qs)]
    { cols := ["metrica", "valor"]
      rows := (metricNames.zip vals).map
        (fun p => { cells := [("metrica", CellVal.vStr p.1), ("valor", CellVal.vNum p.2)] }) }

/-- One record produced by the AccuWeather `process_data` normalizer, with
the fixed column set the code writes. -/
structure AccuRecord where
  data : String
  hora : String
  precipitacao_mm : ℚ
  umidade_percent : ℚ
  nuvens_percent : ℚ
  condicao_tempo : String
  chance_chuva : ℚ
  HasPrecipitation : Bool
deriving DecidableEq

/-- One raw AccuWeather payload item; `none` fields model missing keys
(the code reads every field with `item.get` and a default). The outer
`Option` of `TotalLiquid` models a missing or falsy `TotalLiquid` object,
the inner one a missing `Value` key. -/
structure RawItem where
  DateTime : Option String
  TotalLiquid : Option (Option ℚ)
  RelativeHumidity : Option ℚ
  CloudCover : Option ℚ
  IconPhrase : Option String
  PrecipitationProbability : Option ℚ
  HasPrecipitation : Option Bool

/-- The per-item body of `process_data`: the external
`pd.to_datetime` + `strftime` step is the parameter `parseDT`, whose
`none` result models the `except` branch that coerces a malformed
date/time to empty strings. -/
def process_item (parseDT : String → Option (String × String)) (item : RawItem) : AccuRecord :=
  let datetimeStr := item.DateTime.getD ""
  let dh :=
    if datetimeStr = "" then ("", "")
    else match parseDT datetimeStr with
      | some p => p
      | none => ("", "")
  let totalLiquid :=
    match item.TotalLiquid with
    | none => 0
    | some v => v.getD 0
  { data := dh.1
    hora := dh.2
    precipitacao_mm := round2 totalLiquid
    umidade_percent := item.RelativeHumidity.getD 0
    nuvens_percent := item.CloudCover.getD 0
    condicao_tempo := item.IconPhrase.getD ""
    chance_chuva := item.PrecipitationProbability.getD 0
    HasPrecipitation := item.HasPrecipitation.getD false }

/-- `WeatherDataExtractor.process_data`: an absent (or empty, hence falsy)
payload yields the empty list, otherwise every item is normalized. -/
def process_data (parseDT : String → Option (String × String))
    (payload : Option (List RawItem)) : List AccuRecord :=
  match payload with
  | none => []
  | some items => items.map (process_item parseDT)

/-- State of the AccuWeather spreadsheet file. -/
inductive AccuFile where
  | absent
  | unreadable
  | present (existing : List AccuRecord)

/-- The `DateTime_temp` comparison key of `save_to_excel`. -/
def accu_key (r : AccuRecord) : String :=
  r.data ++ " " ++ r.hora

/-- `WeatherDataExtractor.save_to_excel`: returns the boolean result of the
python function together with the `Dados_Completos` row list written to the
file (`none` when nothing is written). -/
def save_to_excel (fs : AccuFile) (newData : List AccuRecord) :
    Bool × Option (List AccuRecord) :=
  if newData.isEmpty then (false, none)
  else
    match fs with
    | AccuFile.present existing =>
      let filtered := newData.filter
        (fun r => !(existing.any (fun e => accu_key e == accu_key r)))
      if filtered.isEmpty then (false, none)
      else
        let combined := existing ++ filtered
        (true, some (List.insertionSort
          (fun a b => keyLE (some (accu_key a)) (some (accu_key b))) combined))
    | AccuFile.unreadable => (true, some newData)
    | AccuFile.absent => (true, some newData)

/-- The `location` object of a WeatherAPI current-conditions payload
(`none` fields model missing keys, which the code indexes directly). -/
structure RawLocation where
  name : Option String

/-- The `current` object of a WeatherAPI current-conditions payload. -/
structure RawCurrentBlock where
  precip_mm : Option ℚ
  precip_in : Option ℚ
  humidity : Option ℚ
  cloud : Option ℚ
  condition_text : Option String

/-- A WeatherAPI current-conditions payload. -/
structure RawCurrentPayload where
  current : Option RawCurrentBlock
  location : Option RawLocation

/-- `format_current_precipitation` (lines 189-216 of `uniao.py`). A falsy
payload yields an empty table; a present payload is indexed directly
(`data['current']`, `data['location']`, ...), so a missing key raises,
modelled by `Except.error`. The wall-clock strings produced by
`datetime.now()` are the parameters `nowTs` / `nowDate`. -/
def format_current_precipitation (nowTs nowDate : String)
    (payload : Option RawCurrentPayload) : Except String Table :=
  match payload with
  | none => Except.ok { cols := [], rows := [] }
  | some d =>
    match d.current with
    | none => Except.error "KeyError: current"
    | some cur =>
      match d.location with
      | none => Except.error "KeyError: location"
      | some loc =>
        match cur.precip_mm, cur.precip_in, cur.humidity, cur.cloud,
            cur.condition_text, loc.name with
        | some pmm, some pin, some hum, some cl, some cond, some nm =>
          Except.ok
            { cols := ["timestamp", "data", "cidade", "precipitacao_mm",
                       "precipitacao_in", "umidade_percent", "nuvens_percent",
                       "condicao_tempo", "chance_chuva", "tipo_dados"]
              rows := [{ cells :=
                [("timestamp", CellVal.vStr nowTs),
                 ("data", CellVal.vStr nowDate),
                 ("cidade", CellVal.vStr nm),
                 ("precipitacao_mm", CellVal.vNum pmm),
                 ("precipitacao_in", CellVal.vNum pin),
                 ("umidade_percent", CellVal.vNum hum),
                 ("nuvens_percent", CellVal.vNum cl),
                 ("condicao_tempo", CellVal.vStr cond),
                 ("chance_chuva", CellVal.vStr "N/A"),
                 ("tipo_dados", CellVal.vStr "Atual")] }] }
        | _, _, _, _, _, _ => Except.error "KeyError: current field"

/-! ### Helper lemmas about the merge building blocks -/

theorem mem_dropDupKeepLast {ks : List String} {r : Row} :
    ∀ {l : List Row}, r ∈ dropDupKeepLast ks l → r ∈ l
  | [], h => by simp [dropDupKeepLast] at h
  | a :: rest, h => by
    rw [dropDupKeepLast] at h
    by_cases hdup : rest.any (fun s => decide (keyOf ks s = keyOf ks a)) = true
    · rw [if_pos hdup] at h
      exact List.mem_cons_of_mem a (mem_dropDupKeepLast h)
    · rw [if_neg hdup] at h
      rcases List.mem_cons.mp h with h | h
      · exact h ▸ List.mem_cons_self a rest
      · exact List.mem_cons_of_mem a (mem_dropDupKeepLast h)

theorem dropDupKeepLast_ne_nil {ks : List String} :
    ∀ {l : List Row}, l ≠ [] → dropDupKeepLast ks l ≠ []
  | [], h => absurd rfl h
  | a :: rest, _ => by
    rw [dropDupKeepLast]
    by_cases hdup : rest.any (fun s => decide (keyOf ks s = keyOf ks a)) = true
    · rw [if_pos hdup]
      rcases List.any_eq_true.mp hdup with ⟨s, hs, _⟩
      exact dropDupKeepLast_ne_nil (List.ne_nil_of_mem hs)
    · rw [if_neg hdup]
      exact List.cons_ne_nil a _

theorem dropDupKeepLast_pairwise (ks : List String) :
    ∀ l : List Row, (dropDupKeepLast ks l).Pairwise (fun a b => keyOf ks a ≠ keyOf ks b)
  | [] => List.Pairwise.nil
  | a :: rest => by
    rw [dropDupKeepLast]
    by_cases hdup : rest.any (fun s => decide (keyOf ks s = keyOf ks a)) = true
    · rw [if_pos hdup]
      exact dropDupKeepLast_pairwise ks rest
    · rw [if_neg hdup]
      refine List.Pairwise.cons ?_ (dropDupKeepLast_pairwise ks rest)
      intro b hb
      have hbrest : b ∈ rest := mem_dropDupKeepLast hb
      have h2 : ∀ x ∈ rest, ¬keyOf ks x = keyOf ks a := by simpa using hdup
      exact fun hab => h2 b hbrest hab.symm

theorem dropDupKeepLast_eq_self {ks : List String} :
    ∀ {l : List Row}, l.Pairwise (fun a b => keyOf ks a ≠ keyOf ks b) →
      dropDupKeepLast ks l = l
  | [], _ => rfl
  | a :: rest, h => by
    rw [dropDupKeepLast]
    have hhead := List.pairwise_cons.mp h
    have hdup : rest.any (fun s => decide (keyOf ks s = keyOf ks a)) = false := by
      rw [List.any_eq_false]
      intro s hs
      simp only [decide_eq_true_eq]
      exact fun hk => hhead.1 s hs hk.symm
    rw [if_neg (by simp [hdup])]
    rw [dropDupKeepLast_eq_self hhead.2]

theorem dropDupKeepLast_append {ks : List String} {ys : List Row} :
    ∀ {xs : List Row}, xs.Pairwise (fun a b => keyOf ks a ≠ keyOf ks b) →
      dropDupKeepLast ks (xs ++ ys) =
        xs.filter (fun r => !ys.any (fun s => decide (keyOf ks s = keyOf ks r))) ++
          dropDupKeepLast ks ys
  | [], _ => by simp
  | x :: xs, h => by
    have hhead := List.pairwise_cons.mp h
    rw [List.cons_append, dropDupKeepLast]
    have hxs : (xs.any (fun s => decide (keyOf ks s = keyOf ks x))) = false := by
      rw [List.any_eq_false]
      intro s hs
      simp only [decide_eq_true_eq]
      exact fun hk => hhead.1 s hs hk.symm
    rw [List.any_append, hxs, Bool.false_or]
    by_cases hy : ys.any (fun s => decide (keyOf ks s = keyOf ks x)) = true
    · rw [if_pos hy, dropDupKeepLast_append hhead.2,
        List.filter_cons_of_neg (by simp [hy])]
    · rw [if_neg hy, dropDupKeepLast_append hhead.2,
        List.filter_cons_of_pos (by simp [Bool.not_eq_true] at hy ⊢; exact hy),
        List.cons_append]

theorem dropDupKeepLast_filter_key (ks : List String) (k : List (Option CellVal)) :
    ∀ l : List Row,
      (dropDupKeepLast ks l).filter (fun r => decide (keyOf ks r = k)) =
        ((l.filter (fun r => decide (keyOf ks r = k))).getLast?).toList
  | [] => rfl
  | r :: rest => by
    rw [dropDupKeepLast]
    by_cases hdup : rest.any (fun s => decide (keyOf ks s = keyOf ks r)) = true
    · rw [if_pos hdup]
      by_cases hk : keyOf ks r = k
      · have hne : rest.filter (fun x => decide (keyOf ks x = k)) ≠ [] := by
          rcases List.any_eq_true.mp hdup with ⟨s, hs, hsk⟩
          simp only [decide_eq_true_eq] at hsk
          have hmem : s ∈ rest.filter (fun x => decide (keyOf ks x = k)) :=
            List.mem_filter.mpr ⟨hs, by simp [hsk, hk]⟩
          exact List.ne_nil_of_mem hmem
        rw [dropDupKeepLast_filter_key ks k rest,
          List.filter_cons_of_pos (by simp [hk])]
        cases hfr : rest.filter (fun x => decide (keyOf ks x = k)) with
        | nil => exact absurd hfr hne
        | cons a as => rw [List.getLast?_cons_cons]
      · rw [dropDupKeepLast_filter_key ks k rest,
          List.filter_cons_of_neg (by simp [hk])]
    · rw [if_neg hdup]
      by_cases hk : keyOf ks r = k
      · have hrest : rest.filter (fun x => decide (keyOf ks x = k)) = [] := by
          rw [List.filter_eq_nil_iff]
          intro s hs
          have h2 : ∀ x ∈ rest, ¬keyOf ks x = keyOf ks r := by simpa using hdup
          simp only [decide_eq_true_eq]
          exact fun hks => h2 s hs (hk ▸ hks)
        rw [List.filter_cons_of_pos (by simp [hk]),
          dropDupKeepLast_filter_key ks k rest, hrest,
          List.filter_cons_of_pos (by simp [hk]), hrest]
        rfl
      · rw [List.filter_cons_of_neg (by simp [hk]),
          dropDupKeepLast_filter_key ks k rest,
          List.filter_cons_of_neg (by simp [hk])]

theorem sortRows_perm (f : Row → Option String) (l : List Row) :
    List.Perm (sortRows f l) l :=
  List.perm_insertionSort (rowLE f) l

theorem sortRows_sorted (f : Row → Option String) (l : List Row) :
    List.Sorted (rowLE f) (sortRows f l) :=
  List.sorted_insertionSort (rowLE f) l

theorem sortRows_eq_self {f : Row → Option String} {l : List Row}
    (h : List.Sorted (rowLE f) l) : sortRows f l = l :=
  h.insertionSort_eq

theorem sorted_key_nodup_eq {f : Row → Option String} {l₁ l₂ : List Row}
    (hp : List.Perm l₁ l₂) (hs₁ : List.Sorted (rowLE f) l₁)
    (hs₂ : List.Sorted (rowLE f) l₂) (hn : (l₁.map f).Nodup) : l₁ = l₂ := by
  have hn₂ : (l₂.map f).Nodup := (hp.map f).nodup_iff.mp hn
  have key₁ : l₁.Pairwise (fun a b => f a ≠ f b) := List.pairwise_map.mp hn
  have key₂ : l₂.Pairwise (fun a b => f a ≠ f b) := List.pairwise_map.mp hn₂
  have hst₁ : List.Sorted (rowLT f) l₁ :=
    (List.Pairwise.and hs₁ key₁).imp (fun h => ⟨h.1, h.2⟩)
  have hst₂ : List.Sorted (rowLT f) l₂ :=
    (List.Pairwise.and hs₂ key₂).imp (fun h => ⟨h.1, h.2⟩)
  exact List.eq_of_perm_of_sorted hp hst₁ hst₂

theorem lex_append {r : Char → Char → Prop} {l₁ l₂ : List Char}
    (h : List.Lex r l₁ l₂) :
    ∀ s₁ s₂ : List Char, l₁.length = l₂.length → List.Lex r (l₁ ++ s₁) (l₂ ++ s₂) := by
  induction h with
  | nil => intro s₁ s₂ hlen; simp at hlen
  | cons _ ih =>
    intro s₁ s₂ hlen
    exact List.Lex.cons (ih s₁ s₂ (by simpa using hlen))
  | rel hr => intro s₁ s₂ _; exact List.Lex.rel hr

theorem str_lt_append {d₁ d₂ s₁ s₂ : String}
    (hlen : d₁.length = d₂.length) (h : d₁ < d₂) : (d₁ ++ s₁) < (d₂ ++ s₂) := by
  rw [String.lt_iff_toList_lt] at h ⊢
  have h2 : List.Lex (· < ·) d₁.toList d₂.toList := h
  have hlen2 : d₁.toList.length = d₂.toList.length := by
    have e1 : d₁.toList.length = d₁.length := String.length_data d₁
    have e2 : d₂.toList.length = d₂.length := String.length_data d₂
    rw [e1, e2, hlen]
  have h3 : List.Lex (· < ·) (d₁.toList ++ s₁.toList) (d₂.toList ++ s₂.toList) :=
    lex_append h2 _ _ hlen2
  exact h3

theorem hasCol_concat (a b : Table) (c : String) :
    (a.concat b).hasCol c = (a.hasCol c || b.hasCol c) := by
  simp only [Table.concat, Table.hasCol]
  by_cases ha : c ∈ a.cols <;> by_cases hb : c ∈ b.cols <;>
    simp [ha, hb, List.contains, List.mem_filter]

theorem merge_table_eq_keyed {nm : String} {ex nt : Table} {ks : List String}
    (hne : ex.rows ≠ []) (hnm : nm ≠ "Resumo_Precipitacao")
    (hks : merge_keys ex nt = some ks) :
    (ks = ["data", "hora"] ∧ merge_table nm (some ex) nt =
      { cols := (ex.concat nt).cols
        rows := sortRows hourKeyStr (dropDupKeepLast ["data", "hora"] (ex.rows ++ nt.rows)) }) ∨
    (ks = ["data"] ∧ merge_table nm (some ex) nt =
      { cols := (ex.concat nt).cols
        rows := sortRows dayKeyStr (dropDupKeepLast ["data"] (ex.rows ++ nt.rows)) }) := by
  have hempty : ¬(ex.rows.isEmpty = true) := by
    simpa [List.isEmpty_iff] using hne
  unfold merge_keys at hks
  by_cases h1 : (nt.hasCol "data" && nt.hasCol "hora" &&
      ex.hasCol "data" && ex.hasCol "hora") = true
  · left
    rw [if_pos h1] at hks
    refine ⟨(Option.some_injective _ hks).symm, ?_⟩
    simp only [merge_table]
    rw [if_neg hempty, if_neg hnm, if_pos h1]
    rfl
  · rw [if_neg h1] at hks
    by_cases h2 : (nt.hasCol "data" && ex.hasCol "data") = true
    · right
      rw [if_pos h2] at hks
      refine ⟨(Option.some_injective _ hks).symm, ?_⟩
      simp only [merge_table]
      rw [if_neg hempty, if_neg hnm, if_neg h1, if_pos h2]
      rfl
    · rw [if_neg h2] at hks
      exact absurd hks (by simp)

theorem merge_table_no_key {nm : String} {ex nt : Table}
    (hne : ex.rows ≠ []) (hnm : nm ≠ "Resumo_Precipitacao")
    (hks : merge_keys ex nt = none) :
    merge_table nm (some ex) nt = resort_combined (ex.concat nt) := by
  have hempty : ¬(ex.rows.isEmpty = true) := by
    simpa [List.isEmpty_iff] using hne
  unfold merge_keys at hks
  by_cases h1 : (nt.hasCol "data" && nt.hasCol "hora" &&
      ex.hasCol "data" && ex.hasCol "hora") = true
  · rw [if_pos h1] at hks; exact absurd hks (by simp)
  · rw [if_neg h1] at hks
    by_cases h2 : (nt.hasCol "data" && ex.hasCol "data") = true
    · rw [if_pos h2] at hks; exact absurd hks (by simp)
    · simp only [merge_table]
      rw [if_neg hempty, if_neg hnm, if_neg h1, if_neg h2]

theorem dayKeyStr_congr {a b : Row}
    (h : keyOf ["data"] a = keyOf ["data"] b) : dayKeyStr a = dayKeyStr b := by
  simp only [keyOf, List.map_cons, List.map_nil, List.cons.injEq, and_true] at h
  simp [dayKeyStr, h]

theorem hourKeyStr_congr {a b : Row}
    (h : keyOf ["data", "hora"] a = keyOf ["data", "hora"] b) :
    hourKeyStr a = hourKeyStr b := by
  simp only [keyOf, List.map_cons, List.map_nil, List.cons.injEq, and_true] at h
  simp [hourKeyStr, dayKeyStr, horaStr, h.1, h.2]

theorem key_symm {ks : List String} :
    Symmetric (fun a b : Row => keyOf ks a ≠ keyOf ks b) :=
  fun _ _ h => fun he => h he.symm

theorem perm_subset_filter {ks : List String} {T S : List Row}
    (hsub : S.Sublist T)
    (hdist : T.Pairwise (fun a b => keyOf ks a ≠ keyOf ks b)) :
    List.Perm
      (T.filter (fun r => !S.any (fun s => decide (keyOf ks s = keyOf ks r))) ++ S) T := by
  have hTnodup : T.Nodup := hdist.imp (fun hk he => hk (congrArg _ he))
  have hSnodup : S.Nodup := List.Nodup.sublist hsub hTnodup
  have hmem : ∀ x,
      x ∈ T.filter (fun r => S.any (fun s => decide (keyOf ks s = keyOf ks r))) ↔ x ∈ S := by
    intro x
    constructor
    · intro hx
      obtain ⟨hxT, hP⟩ := List.mem_filter.mp hx
      obtain ⟨s, hsS, hks⟩ := List.any_eq_true.mp hP
      simp only [decide_eq_true_eq] at hks
      have hsT : s ∈ T := hsub.subset hsS
      by_cases hxs : x = s
      · exact hxs ▸ hsS
      · exact absurd hks.symm (List.Pairwise.forall key_symm hdist hxT hsT hxs)
    · intro hxS
      refine List.mem_filter.mpr ⟨hsub.subset hxS, ?_⟩
      exact List.any_eq_true.mpr ⟨x, hxS, by simp⟩
  have hperm : List.Perm
      (T.filter (fun r => S.any (fun s => decide (keyOf ks s = keyOf ks r)))) S :=
    (List.perm_ext_iff_of_nodup (hTnodup.filter _) hSnodup).mpr hmem
  have h1 : List.Perm
      (T.filter (fun r => !S.any (fun s => decide (keyOf ks s = keyOf ks r))) ++ S)
      (T.filter (fun r => !S.any (fun s => decide (keyOf ks s = keyOf ks r))) ++
        T.filter (fun r => S.any (fun s => decide (keyOf ks s = keyOf ks r)))) :=
    List.Perm.append_left _ hperm.symm
  have h2 : List.Perm
      (T.filter (fun r => !S.any (fun s => decide (keyOf ks s = keyOf ks r))) ++
        T.filter (fun r => S.any (fun s => decide (keyOf ks s = keyOf ks r))))
      (T.filter (fun r => S.any (fun s => decide (keyOf ks s = keyOf ks r))) ++
        T.filter (fun r => !S.any (fun s => decide (keyOf ks s = keyOf ks r)))) :=
    List.perm_append_comm
  have h3 : List.Perm
      (T.filter (fun r => S.any (fun s => decide (keyOf ks s = keyOf ks r))) ++
        T.filter (fun r => !S.any (fun s => decide (keyOf ks s = keyOf ks r))))
      T :=
    List.filter_append_perm _ T
  exact (h1.trans h2).trans h3

theorem sort_dedup_subset {f : Row → Option String} {ks : List String}
    (hcongr : ∀ a b : Row, keyOf ks a = keyOf ks b → f a = f b)
    {T S : List Row} (hsub : S.Sublist T)
    (hsorted : List.Sorted (rowLE f) T)
    (hdist : T.Pairwise (fun a b => f a ≠ f b)) :
    sortRows f (dropDupKeepLast ks (T ++ S)) = T := by
  have hkdist : T.Pairwise (fun a b => keyOf ks a ≠ keyOf ks b) :=
    hdist.imp (fun hf hk => hf (hcongr _ _ hk))
  have hSkdist : S.Pairwise (fun a b => keyOf ks a ≠ keyOf ks b) :=
    List.Pairwise.sublist hsub hkdist
  rw [dropDupKeepLast_append hkdist, dropDupKeepLast_eq_self hSkdist]
  have hperm : List.Perm
      (sortRows f (T.filter (fun r => !S.any (fun s => decide (keyOf ks s = keyOf ks r))) ++ S))
      T :=
    (sortRows_perm f _).trans (perm_subset_filter hsub hkdist)
  have hfnodup : (T.map f).Nodup := List.pairwise_map.mpr hdist
  exact sorted_key_nodup_eq hperm (sortRows_sorted f _) hsorted
    ((hperm.map f).nodup_iff.mpr hfnodup)

theorem lookupTable_nil (nm : String) : lookupTable nm [] = none := rfl

theorem lookupTable_combine (E N : List (String × Table)) (nm : String) :
    lookupTable nm (combine_data E N) =
      (lookupTable nm N).map (fun t => merge_table nm (lookupTable nm E) t) := by
  induction N with
  | nil => rfl
  | cons p N ih =>
    simp only [combine_data, List.map_cons] at ih ⊢
    by_cases h : p.1 = nm
    · simp [lookupTable, h]
    · simp only [lookupTable, if_neg h]
      exact ih

theorem lookupTable_filter_some {l : List (String × Table)} {nm : String} {t : Table}
    (h : lookupTable nm l = some t) (ht : t.rows ≠ []) :
    lookupTable nm (l.filter (fun p => !p.2.rows.isEmpty)) = some t := by
  induction l with
  | nil => simp [lookupTable] at h
  | cons q l ih =>
    rw [List.filter_cons]
    by_cases hq : q.1 = nm
    · simp only [lookupTable, if_pos hq] at h
      have hqt : q.2 = t := Option.some_injective _ h
      have hcond : ((fun p : String × Table => !p.2.rows.isEmpty) q) = true := by
        simp [hqt, List.isEmpty_iff, ht]
      rw [if_pos hcond]
      simp only [lookupTable, if_pos hq, hqt]
    · simp only [lookupTable, if_neg hq] at h
      split
      · simp only [lookupTable, if_neg hq]
        exact ih h
      · exact ih h

theorem lookupTable_filter_none {l : List (String × Table)} {nm : String}
    {q : (String × Table) → Bool} (h : lookupTable nm l = none) :
    lookupTable nm (l.filter q) = none := by
  induction l with
  | nil => rfl
  | cons p l ih =>
    rw [List.filter_cons]
    by_cases hp : p.1 = nm
    · simp [lookupTable, if_pos hp] at h
    · simp only [lookupTable, if_neg hp] at h
      split
      · simp only [lookupTable, if_neg hp]
        exact ih h
      · exact ih h

theorem combine_data_nil : ∀ N : List (String × Table), combine_data [] N = N
  | [] => rfl
  | p :: N => congrArg (List.cons p) (combine_data_nil N)

/-! ### Example data used by witnesses -/

/-- Example daily row: date 2024-01-01 with precipitation 1.0 mm. -/
def exRow1 : Row :=
  { cells := [("data", CellVal.vStr "2024-01-01"), ("precipitacao_mm", CellVal.vNum 1)] }

/-- Example refetched daily row: same date, precipitation 2.5 mm. -/
def exRow2 : Row :=
  { cells := [("data", CellVal.vStr "2024-01-01"), ("precipitacao_mm", CellVal.vNum (5/2))] }

/-- Example existing daily table. -/
def exDaily : Table := { cols := ["data", "precipitacao_mm"], rows := [exRow1] }

/-- Example newly fetched daily table for the same date. -/
def ntDaily : Table := { cols := ["data", "precipitacao_mm"], rows := [exRow2] }

/-! ### Claims -/

/-- Claim C6: a new table under the summary name `Resumo_Precipitacao`
unconditionally replaces any existing table of that name, so the stored
summary equals the summary computed fresh from that cycle's daily table
alone, never an accumulation with prior summaries. -/
theorem c6_summary_replaced (ex : Option Table) (daily : Table) :
    merge_table "Resumo_Precipitacao" ex (create_precipitation_summary daily) =
      create_precipitation_summary daily := by
  cases ex with
  | none => rfl
  | some e =>
    simp only [merge_table]
    by_cases h : e.rows.isEmpty = true
    · rw [if_pos h]
    · rw [if_neg h]
      simp

/-- Claim C3: merging an existing non-empty non-summary table with an empty
new table (no columns, no rows — what the formatters return for an absent
payload) keeps exactly the prior rows: the merged rows are a permutation of
the prior rows (nothing erased, nothing duplicated), the merged table is
non-empty (so the store writes it rather than a zero-row section), and if
the prior table was chronologically sorted — as every previously persisted
merge output is — the merge is the identity. -/
theorem c3_empty_new_table_noop (nm : String) (ex : Table)
    (hne : ex.rows ≠ []) (hnm : nm ≠ "Resumo_Precipitacao") :
    List.Perm (merge_table nm (some ex) { cols := [], rows := [] }).rows ex.rows ∧
    (merge_table nm (some ex) { cols := [], rows := [] }).rows ≠ [] ∧
    (chron_sorted ex → merge_table nm (some ex) { cols := [], rows := [] } = ex) := by
  have hkeys : merge_keys ex { cols := [], rows := [] } = none := by
    simp [merge_keys, Table.hasCol]
  have hm := merge_table_no_key hne hnm hkeys
  have hcc : ex.concat { cols := [], rows := [] } = ex := by
    cases ex with
    | mk cols rows => simp [Table.concat]
  rw [hm, hcc]
  unfold resort_combined chron_sorted
  by_cases h1 : (ex.hasCol "data" && ex.hasCol "hora") = true
  · rw [if_pos h1, if_pos h1]
    refine ⟨sortRows_perm _ _, ?_, ?_⟩
    · intro hnil
      have hp : List.Perm ([] : List Row) ex.rows := hnil ▸ sortRows_perm hourKeyStr ex.rows
      exact hne hp.symm.eq_nil
    · intro hs
      rw [sortRows_eq_self hs]
  · rw [if_neg h1, if_neg h1]
    by_cases h2 : ex.hasCol "data" = true
    · rw [if_pos h2, if_pos h2]
      refine ⟨sortRows_perm _ _, ?_, ?_⟩
      · intro hnil
        have hp : List.Perm ([] : List Row) ex.rows := hnil ▸ sortRows_perm dayKeyStr ex.rows
        exact hne hp.symm.eq_nil
      · intro hs
        rw [sortRows_eq_self hs]
    · rw [if_neg h2, if_neg h2]
      exact ⟨List.Perm.refl _, hne, fun _ => rfl⟩

/-- Witness for claim C3 at a concrete one-row daily table. -/
theorem c3_witness :
    List.Perm (merge_table "Dados_Diarios" (some exDaily) { cols := [], rows := [] }).rows
      exDaily.rows ∧
    (merge_table "Dados_Diarios" (some exDaily) { cols := [], rows := [] }).rows ≠ [] ∧
    (chron_sorted exDaily →
      merge_table "Dados_Diarios" (some exDaily) { cols := [], rows := [] } = exDaily) :=
  c3_empty_new_table_noop "Dados_Diarios" exDaily (by decide) (by decide)

/-- Claim C1: for an existing non-empty non-summary table and a new table
that both carry the dedup key columns, any key occurring in both tables
occurs exactly once in the merged table, and the surviving row is the last
new-table row with that key (new data wins over existing data). -/
theorem c1_overwrite_on_refetch (nm : String) (ex nt : Table) (ks : List String)
    (k : List (Option CellVal))
    (hne : ex.rows ≠ []) (hnm : nm ≠ "Resumo_Precipitacao")
    (hks : merge_keys ex nt = some ks)
    (hex : ex.rows.filter (fun q => decide (keyOf ks q = k)) ≠ [])
    (hnt : nt.rows.filter (fun q => decide (keyOf ks q = k)) ≠ []) :
    ∃ r, (nt.rows.filter (fun q => decide (keyOf ks q = k))).getLast? = some r ∧
      (merge_table nm (some ex) nt).rows.filter (fun q => decide (keyOf ks q = k)) = [r] := by
  obtain ⟨r, hr⟩ : ∃ r, (nt.rows.filter (fun q => decide (keyOf ks q = k))).getLast? = some r :=
    Option.isSome_iff_exists.mp (List.getLast?_isSome.mpr hnt)
  refine ⟨r, hr, ?_⟩
  have hdd : ∀ ks2 : List String, ks2 = ks →
      (dropDupKeepLast ks2 (ex.rows ++ nt.rows)).filter (fun q => decide (keyOf ks2 q = k)) = [r] := by
    intro ks2 hks2
    subst hks2
    rw [dropDupKeepLast_filter_key, List.filter_append, List.getLast?_append, hr]
    rfl
  rcases merge_table_eq_keyed hne hnm hks with ⟨hks2, hm⟩ | ⟨hks2, hm⟩ <;> rw [hm] <;>
    subst hks2
  · have hperm := (sortRows_perm hourKeyStr
      (dropDupKeepLast ["data", "hora"] (ex.rows ++ nt.rows))).filter
        (fun q => decide (keyOf ["data", "hora"] q = k))
    rw [hdd ["data", "hora"] rfl] at hperm
    exact List.perm_singleton.mp hperm
  · have hperm := (sortRows_perm dayKeyStr
      (dropDupKeepLast ["data"] (ex.rows ++ nt.rows))).filter
        (fun q => decide (keyOf ["data"] q = k))
    rw [hdd ["data"] rfl] at hperm
    exact List.perm_singleton.mp hperm

/-- Witness for claim C1: the spec's example — an existing daily row for
2024-01-01 with 1.0 mm merged with a refetched row for 2024-01-01 with
2.5 mm yields exactly one row for that date, the new one. -/
theorem c1_witness :
    ∃ r, (ntDaily.rows.filter
        (fun q => decide (keyOf ["data"] q = [some (CellVal.vStr "2024-01-01")]))).getLast? =
      some r ∧
      (merge_table "Dados_Diarios" (some exDaily) ntDaily).rows.filter
        (fun q => decide (keyOf ["data"] q = [some (CellVal.vStr "2024-01-01")])) = [r] :=
  c1_overwrite_on_refetch "Dados_Diarios" exDaily ntDaily ["data"]
    [some (CellVal.vStr "2024-01-01")] (by decide) (by decide) (by decide) (by decide) (by decide)

/-- Claim C7: after a merge of a non-summary table with an available dedup
key, the key is unique — no two rows of the merged table share it. -/
theorem c7_key_unique (nm : String) (ex nt : Table) (ks : List String)
    (hne : ex.rows ≠ []) (hnm : nm ≠ "Resumo_Precipitacao")
    (hks : merge_keys ex nt = some ks) :
    ((merge_table nm (some ex) nt).rows).Pairwise (fun a b => keyOf ks a ≠ keyOf ks b) := by
  rcases merge_table_eq_keyed hne hnm hks with ⟨hks2, hm⟩ | ⟨hks2, hm⟩ <;> rw [hm] <;> subst hks2
  · exact ((sortRows_perm _ _).pairwise_iff (fun h he => h he.symm)).mpr
      (dropDupKeepLast_pairwise _ _)
  · exact ((sortRows_perm _ _).pairwise_iff (fun h he => h he.symm)).mpr
      (dropDupKeepLast_pairwise _ _)

/-- Witness for claim C7 at the concrete daily example. -/
theorem c7_witness :
    ((merge_table "Dados_Diarios" (some exDaily) ntDaily).rows).Pairwise
      (fun a b => keyOf ["data"] a ≠ keyOf ["data"] b) :=
  c7_key_unique "Dados_Diarios" exDaily ntDaily ["data"] (by decide) (by decide) (by decide)

theorem chain_key_of_sorted {f : Row → Option String} {l : List Row}
    (h : List.Sorted (rowLE f) l) :
    l.Chain' (fun a b => ∀ c₁ c₂, f a = some c₁ → f b = some c₂ → c₁ ≤ c₂) := by
  apply List.Pairwise.chain'
  refine h.imp ?_
  intro a b hab c₁ c₂ h1 h2
  have hab2 : keyLE (f a) (f b) := hab
  rw [h1, h2] at hab2
  exact hab2

theorem dayKeyStr_some_get {r : Row} {d : String} (h : dayKeyStr r = some d) :
    r.get "data" = some (CellVal.vStr d) := by
  unfold dayKeyStr at h
  split at h
  next s hs => exact (Option.some_injective _ h) ▸ hs
  next => cases h

theorem hourKeyStr_eq_some {r : Row} {c : String} (h : hourKeyStr r = some c) :
    ∃ d hh, dayKeyStr r = some d ∧ horaStr r = some hh ∧ c = (d ++ " ") ++ hh := by
  unfold hourKeyStr at h
  split at h
  next d hh hd hhh =>
    refine ⟨d, hh, hd, hhh, ?_⟩
    have := Option.some_injective _ h
    rw [← this, String.append_assoc]
  next => cases h

theorem chain_hour_of_sorted_day {l : List Row}
    (hs : List.Sorted (rowLE dayKeyStr) l)
    (hd : l.Pairwise (fun a b => keyOf ["data"] a ≠ keyOf ["data"] b))
    (hlen : ∀ r ∈ l, ∀ d, dayKeyStr r = some d → d.length = 10) :
    l.Chain' (fun a b => ∀ c₁ c₂, hourKeyStr a = some c₁ → hourKeyStr b = some c₂ → c₁ ≤ c₂) := by
  apply List.Pairwise.chain'
  refine List.Pairwise.imp_of_mem ?_ (List.Pairwise.and hs hd)
  intro a b ha hb hab c₁ c₂ h1 h2
  obtain ⟨d₁, t₁, hd₁, ht₁, hc₁⟩ := hourKeyStr_eq_some h1
  obtain ⟨d₂, t₂, hd₂, ht₂, hc₂⟩ := hourKeyStr_eq_some h2
  have hle : keyLE (dayKeyStr a) (dayKeyStr b) := hab.1
  rw [hd₁, hd₂] at hle
  have hne : d₁ ≠ d₂ := by
    intro he
    apply hab.2
    simp only [keyOf, List.map_cons, List.map_nil,
      dayKeyStr_some_get hd₁, dayKeyStr_some_get hd₂, he]
  have hlt : d₁ < d₂ := lt_of_le_of_ne hle hne
  have hl₁ : d₁.length = 10 := hlen a ha d₁ hd₁
  have hl₂ : d₂.length = 10 := hlen b hb d₂ hd₂
  rw [hc₁, hc₂]
  have hlt2 : (d₁ ++ " ") < (d₂ ++ " ") :=
    str_lt_append (by rw [hl₁, hl₂]) hlt
  have hlen3 : (d₁ ++ " ").length = (d₂ ++ " ").length := by
    simp [String.length_append, hl₁, hl₂]
  exact le_of_lt (str_lt_append hlen3 hlt2)

/-- Claim C4: a merged non-summary table (merged against a non-empty
existing table; dates in the ISO 10-character format of the data model) is
chronologically sorted: adjacent rows are ascending in the composite
timestamp when the merged table has both `data` and `hora` columns,
ascending in `data` when only `data` is present, and left in concatenated
input order when no `data` column is available. -/
theorem c4_chronological_order (nm : String) (ex nt : Table)
    (hne : ex.rows ≠ []) (hnm : nm ≠ "Resumo_Precipitacao")
    (hlen : ∀ r ∈ ex.rows ++ nt.rows, ∀ d, dayKeyStr r = some d → d.length = 10) :
    ((merge_table nm (some ex) nt).hasCol "data" = true ∧
        (merge_table nm (some ex) nt).hasCol "hora" = true →
      (merge_table nm (some ex) nt).rows.Chain'
        (fun a b => ∀ c₁ c₂, hourKeyStr a = some c₁ → hourKeyStr b = some c₂ → c₁ ≤ c₂)) ∧
    ((merge_table nm (some ex) nt).hasCol "data" = true ∧
        (merge_table nm (some ex) nt).hasCol "hora" = false →
      (merge_table nm (some ex) nt).rows.Chain'
        (fun a b => ∀ d₁ d₂, dayKeyStr a = some d₁ → dayKeyStr b = some d₂ → d₁ ≤ d₂)) ∧
    ((merge_table nm (some ex) nt).hasCol "data" = false →
      (merge_table nm (some ex) nt).rows = ex.rows ++ nt.rows) := by
  by_cases hb1 : (nt.hasCol "data" && nt.hasCol "hora" &&
      ex.hasCol "data" && ex.hasCol "hora") = true
  · have hm : merge_table nm (some ex) nt =
        { cols := (ex.concat nt).cols
          rows := sortRows hourKeyStr (dropDupKeepLast ["data", "hora"] (ex.rows ++ nt.rows)) } := by
      rcases merge_table_eq_keyed hne hnm
          (show merge_keys ex nt = some ["data", "hora"] by simp [merge_keys, hb1]) with
        ⟨_, hm⟩ | ⟨hks2, _⟩
      · exact hm
      · cases hks2
    simp only [Bool.and_eq_true] at hb1
    obtain ⟨⟨⟨hntd, hnth⟩, hexd⟩, hexh⟩ := hb1
    have hcd : (ex.concat nt).hasCol "data" = true := by
      rw [hasCol_concat, hexd, Bool.true_or]
    have hch : (ex.concat nt).hasCol "hora" = true := by
      rw [hasCol_concat, hexh, Bool.true_or]
    rw [hm]
    refine ⟨fun _ => ?_, fun h => ?_, fun h => ?_⟩
    · exact chain_key_of_sorted (sortRows_sorted _ _)
    · exact absurd hch (by simpa using h.2)
    · exact absurd hcd (by simpa using h)
  · by_cases hb2 : (nt.hasCol "data" && ex.hasCol "data") = true
    · have hm : merge_table nm (some ex) nt =
          { cols := (ex.concat nt).cols
            rows := sortRows dayKeyStr (dropDupKeepLast ["data"] (ex.rows ++ nt.rows)) } := by
        rcases merge_table_eq_keyed hne hnm
            (show merge_keys ex nt = some ["data"] by simp [merge_keys, hb1, hb2]) with
          ⟨hks2, _⟩ | ⟨_, hm⟩
        · cases hks2
        · exact hm
      simp only [Bool.and_eq_true] at hb2
      have hcd : (ex.concat nt).hasCol "data" = true := by
        rw [hasCol_concat, hb2.2, Bool.true_or]
      rw [hm]
      refine ⟨fun _ => ?_, fun _ => ?_, fun h => ?_⟩
      · apply chain_hour_of_sorted_day (sortRows_sorted _ _)
        · exact ((sortRows_perm _ _).pairwise_iff (fun h he => h he.symm)).mpr
            (dropDupKeepLast_pairwise _ _)
        · intro r hr d hd
          have hr2 : r ∈ dropDupKeepLast ["data"] (ex.rows ++ nt.rows) :=
            ((sortRows_perm _ _).mem_iff).mp hr
          exact hlen r (mem_dropDupKeepLast hr2) d hd
      · exact chain_key_of_sorted (sortRows_sorted _ _)
      · exact absurd hcd (by simpa using h)
    · have hm := merge_table_no_key hne hnm
        (show merge_keys ex nt = none by simp [merge_keys, hb1, hb2])
      rw [hm]
      unfold resort_combined
      by_cases h3 : ((ex.concat nt).hasCol "data" && (ex.concat nt).hasCol "hora") = true
      · rw [if_pos h3]
        simp only [Bool.and_eq_true] at h3
        refine ⟨fun _ => ?_, fun h => ?_, fun h => ?_⟩
        · exact chain_key_of_sorted (sortRows_sorted _ _)
        · exact absurd h3.2 (by simpa using h.2)
        · exact absurd h3.1 (by simpa using h)
      · rw [if_neg h3]
        by_cases h4 : (ex.concat nt).hasCol "data" = true
        · rw [if_pos h4]
          refine ⟨fun h => ?_, fun _ => ?_, fun h => ?_⟩
          · have hh : (ex.concat nt).hasCol "hora" = true := h.2
            exact absurd (by rw [h4, hh]; rfl : ((ex.concat nt).hasCol "data" &&
              (ex.concat nt).hasCol "hora") = true) h3
          · exact chain_key_of_sorted (sortRows_sorted _ _)
          · exact absurd h4 (by simpa using h)
        · rw [if_neg h4]
          refine ⟨fun h => ?_, fun h => ?_, fun _ => rfl⟩
          · exact absurd h.1 h4
          · exact absurd h.1 h4

/-- Witness for claim C4 at the concrete daily example. -/
theorem c4_witness :
    ((merge_table "Dados_Diarios" (some exDaily) ntDaily).hasCol "data" = true ∧
        (merge_table "Dados_Diarios" (some exDaily) ntDaily).hasCol "hora" = true →
      (merge_table "Dados_Diarios" (some exDaily) ntDaily).rows.Chain'
        (fun a b => ∀ c₁ c₂, hourKeyStr a = some c₁ → hourKeyStr b = some c₂ → c₁ ≤ c₂)) ∧
    ((merge_table "Dados_Diarios" (some exDaily) ntDaily).hasCol "data" = true ∧
        (merge_table "Dados_Diarios" (some exDaily) ntDaily).hasCol "hora" = false →
      (merge_table "Dados_Diarios" (some exDaily) ntDaily).rows.Chain'
        (fun a b => ∀ d₁ d₂, dayKeyStr a = some d₁ → dayKeyStr b = some d₂ → d₁ ≤ d₂)) ∧
    ((merge_table "Dados_Diarios" (some exDaily) ntDaily).hasCol "data" = false →
      (merge_table "Dados_Diarios" (some exDaily) ntDaily).rows = exDaily.rows ++ ntDaily.rows) :=
  c4_chronological_order "Dados_Diarios" exDaily ntDaily (by decide) (by decide)
    (by
      intro r hr d hd
      have hr2 : r = exRow1 ∨ r = exRow2 := by
        simpa [exDaily, ntDaily] using hr
      rcases hr2 with h | h <;> subst h
      · rw [show dayKeyStr exRow1 = some "2024-01-01" by decide] at hd
        cases hd
        decide
      · rw [show dayKeyStr exRow2 = some "2024-01-01" by decide] at hd
        cases hd
        decide)

/-- A refetched table that is a keyed subset of the correspondingly named
already-merged persisted table: same columns, rows a sub-sequence of the
persisted rows, an available dedup key, and the persisted table
chronologically sorted with pairwise-distinct sort keys (the state every
merge output has); the summary table must be resent unchanged. -/
def keyed_subset_of (nm : String) (S T : Table) : Prop :=
  T.rows ≠ [] ∧
  (if nm = "Resumo_Precipitacao" then S = T
   else S.cols = T.cols ∧ S.rows.Sublist T.rows ∧
     ((merge_keys T S = some ["data", "hora"] ∧
        List.Sorted (rowLE hourKeyStr) T.rows ∧
        T.rows.Pairwise (fun a b => hourKeyStr a ≠ hourKeyStr b)) ∨
      (merge_keys T S = some ["data"] ∧
        List.Sorted (rowLE dayKeyStr) T.rows ∧
        T.rows.Pairwise (fun a b => dayKeyStr a ≠ dayKeyStr b))))

theorem concat_cols_self {S T : Table} (hcols : S.cols = T.cols) :
    (T.concat S).cols = T.cols := by
  show T.cols ++ S.cols.filter (fun c => !T.cols.contains c) = T.cols
  have hnil : S.cols.filter (fun c => !T.cols.contains c) = [] := by
    rw [List.filter_eq_nil_iff]
    intro c hc
    rw [hcols] at hc
    simp [List.contains, hc]
  rw [hnil, List.append_nil]

theorem merge_table_keyed_subset {nm : String} {S T : Table}
    (h : keyed_subset_of nm S T) : merge_table nm (some T) S = T := by
  obtain ⟨hne, h2⟩ := h
  by_cases hnm : nm = "Resumo_Precipitacao"
  · rw [if_pos hnm] at h2
    subst h2
    simp only [merge_table]
    by_cases hE : S.rows.isEmpty = true
    · rw [if_pos hE]
    · rw [if_neg hE, if_pos hnm]
  · rw [if_neg hnm] at h2
    obtain ⟨hcols, hsub, hcase⟩ := h2
    rcases hcase with ⟨hks, hsort, hdist⟩ | ⟨hks, hsort, hdist⟩
    · rcases merge_table_eq_keyed hne hnm hks with ⟨_, hm⟩ | ⟨hbad, _⟩
      · rw [hm]
        have hrows : sortRows hourKeyStr
            (dropDupKeepLast ["data", "hora"] (T.rows ++ S.rows)) = T.rows :=
          sort_dedup_subset (fun _ _ hk => hourKeyStr_congr hk) hsub hsort hdist
        rw [hrows, concat_cols_self hcols]
      · cases hbad
    · rcases merge_table_eq_keyed hne hnm hks with ⟨hbad, _⟩ | ⟨_, hm⟩
      · cases hbad
      · rw [hm]
        have hrows : sortRows dayKeyStr
            (dropDupKeepLast ["data"] (T.rows ++ S.rows)) = T.rows :=
          sort_dedup_subset (fun _ _ hk => dayKeyStr_congr hk) hsub hsort hdist
        rw [hrows, concat_cols_self hcols]

/-- Claim C5 (amended): merge is idempotent on already-merged data when the
refetched set covers every persisted table name and each refetched table is
equal to (or a keyed row-subset of) the correspondingly named persisted
table, each persisted table being non-empty, keyed, chronologically sorted
with distinct keys (summary resent unchanged): every name then looks up to
exactly the same table after the cycle. Without the keyed restriction the
claim is false (see the counterexample): a keyless table merged with itself
duplicates its rows. -/
theorem c5_idempotent_merge (secs : List (String × Option Table))
    (N : List (String × Table))
    (hcover : ∀ nm T, lookupTable nm (load_existing (FileState.present secs)) = some T →
      ∃ S, lookupTable nm N = some S)
    (hgood : ∀ nm S, lookupTable nm N = some S →
      ∃ T, lookupTable nm (load_existing (FileState.present secs)) = some T ∧
        keyed_subset_of nm S T) :
    ∀ nm, lookupTable nm (save_precipitation_data (FileState.present secs) N) =
      lookupTable nm (load_existing (FileState.present secs)) := by
  intro nm
  simp only [save_precipitation_data]
  cases hN : lookupTable nm N with
  | none =>
    have hE : lookupTable nm (load_existing (FileState.present secs)) = none := by
      cases hE2 : lookupTable nm (load_existing (FileState.present secs)) with
      | none => rfl
      | some T =>
        obtain ⟨S, hS⟩ := hcover nm T hE2
        rw [hN] at hS
        cases hS
    rw [hE]
    apply lookupTable_filter_none
    rw [lookupTable_combine, hN]
    rfl
  | some S =>
    obtain ⟨T, hT, hks⟩ := hgood nm S hN
    rw [hT]
    apply lookupTable_filter_some
    · rw [lookupTable_combine, hN, Option.map_some', hT,
        merge_table_keyed_subset hks]
    · exact hks.1

/-- Counterexample for claim C5 as stated: a keyless one-row table merged
with an identical new table duplicates the row, so the cycle is not
idempotent on every dataset. -/
theorem c5_counterexample :
    save_precipitation_data
        (FileState.present [("A", some { cols := ["x"], rows := [{ cells := [("x", CellVal.vStr "v")] }] })])
        [("A", { cols := ["x"], rows := [{ cells := [("x", CellVal.vStr "v")] }] })] =
      [("A", { cols := ["x"],
               rows := [{ cells := [("x", CellVal.vStr "v")] },
                        { cells := [("x", CellVal.vStr "v")] }] })] ∧
    ({ cols := ["x"],
       rows := [{ cells := [("x", CellVal.vStr "v")] },
                { cells := [("x", CellVal.vStr "v")] }] } : Table) ≠
      { cols := ["x"], rows := [{ cells := [("x", CellVal.vStr "v")] }] } := by
  constructor
  · rfl
  · decide

/-- Witness for claim C5 (amended) at a concrete one-table dataset
refetched unchanged. -/
theorem c5_witness :
    lookupTable "Dados_Diarios"
        (save_precipitation_data (FileState.present [("Dados_Diarios", some exDaily)])
          [("Dados_Diarios", exDaily)]) =
      lookupTable "Dados_Diarios"
        (load_existing (FileState.present [("Dados_Diarios", some exDaily)])) := by
  apply c5_idempotent_merge
  · intro nm T h
    have h2 : (if "Dados_Diarios" = nm then some exDaily else (none : Option Table)) =
        some T := h
    by_cases hnm : "Dados_Diarios" = nm
    · refine ⟨exDaily, ?_⟩
      show (if "Dados_Diarios" = nm then some exDaily else lookupTable nm []) = some exDaily
      rw [if_pos hnm]
    · rw [if_neg hnm] at h2
      cases h2
  · intro nm S h
    have h2 : (if "Dados_Diarios" = nm then some exDaily else (none : Option Table)) =
        some S := h
    by_cases hnm : "Dados_Diarios" = nm
    · rw [if_pos hnm] at h2
      have hS : exDaily = S := Option.some_injective _ h2
      refine ⟨exDaily, ?_, ?_⟩
      · show (if "Dados_Diarios" = nm then some exDaily else lookupTable nm []) = some exDaily
        rw [if_pos hnm]
      · rw [← hS]
        subst hnm
        refine ⟨by decide, ?_⟩
        rw [if_neg (by decide)]
        exact ⟨rfl, List.Sublist.refl _, Or.inr ⟨by decide, by decide, by decide⟩⟩
    · rw [if_neg hnm] at h2
      cases h2

/-- Example hourly row for the persisted AccuWeather-style hourly sheet. -/
def exHoraRow : Row :=
  { cells := [("data", CellVal.vStr "2024-01-01"), ("hora", CellVal.vStr "03:00:00"),
              ("precipitacao_mm", CellVal.vNum 0)] }

/-- Example persisted hourly table. -/
def exHourly : Table := { cols := ["data", "hora", "precipitacao_mm"], rows := [exHoraRow] }

/-- Claim C2 (evaluation at the failing input): a persisted `Dados_Horarios`
table whose name is absent from the refetched table set is dropped by the
merge-and-store cycle — the loaded dataset still has it, but the rewritten
file does not, because the combine loop iterates only over the refetched
names and the writer rewrites the whole workbook. -/
theorem c2_dropped_table_eval :
    lookupTable "Dados_Horarios"
        (load_existing (FileState.present
          [("Dados_Horarios", some exHourly), ("Dados_Diarios", some exDaily)])) =
      some exHourly ∧
    lookupTable "Dados_Horarios"
        (save_precipitation_data
          (FileState.present
            [("Dados_Horarios", some exHourly), ("Dados_Diarios", some exDaily)])
          [("Dados_Diarios", ntDaily)]) = none := by
  exact ⟨rfl, rfl⟩

/-- Claim C8 (counterexample): `format_current_precipitation` raises (a
`KeyError`, modelled as `Except.error`) on a truthy payload without the
expected `current` object, so the normalizer does not return a table for
every malformed payload. -/
theorem c8_counterexample :
    format_current_precipitation "2024-01-01 10:00:00" "2024-01-01"
        (some { current := none, location := some { name := some "Sao Paulo" } }) =
      Except.error "KeyError: current" := rfl

/-- Claim C8 (amended): the AccuWeather normalizer `process_data` yields
one record per input item — a missing or unparseable DateTime in one item
is coerced to empty date/time strings without dropping the rest of the
batch — and an absent payload yields an empty result for both normalizers;
but the WeatherAPI current-conditions normalizer raises on a truthy payload
lacking the expected structure (see the counterexample). -/
theorem c8_normalizer_behavior (parseDT : String → Option (String × String))
    (items : List RawItem) (nowTs nowDate : String) :
    (process_data parseDT (some items)).length = items.length ∧
    (∀ item ∈ items, item.DateTime.getD "" ≠ "" →
      parseDT (item.DateTime.getD "") = none →
      (process_item parseDT item).data = "" ∧ (process_item parseDT item).hora = "") ∧
    process_data parseDT none = [] ∧
    format_current_precipitation nowTs nowDate none =
      Except.ok { cols := [], rows := [] } := by
  refine ⟨by simp [process_data], ?_, rfl, rfl⟩
  intro item _ hne hparse
  simp [process_item, if_neg hne, hparse]

/-- Example raw AccuWeather item with an unparseable DateTime string. -/
def rawBadItem : RawItem :=
  { DateTime := some "BAD", TotalLiquid := none, RelativeHumidity := none,
    CloudCover := none, IconPhrase := none, PrecipitationProbability := none,
    HasPrecipitation := none }

/-- Example raw AccuWeather item with no DateTime at all. -/
def rawPlainItem : RawItem :=
  { DateTime := none, TotalLiquid := none, RelativeHumidity := none,
    CloudCover := none, IconPhrase := none, PrecipitationProbability := none,
    HasPrecipitation := none }

/-- Witness for claim C8 (amended): a two-item batch whose first item has an
unparseable DateTime still yields two records, the bad one with empty
date/time strings. -/
theorem c8_witness :
    (process_data (fun _ => none) (some [rawBadItem, rawPlainItem])).length = 2 ∧
    (∀ item ∈ [rawBadItem, rawPlainItem], item.DateTime.getD "" ≠ "" →
      (fun _ => (none : Option (String × String))) (item.DateTime.getD "") = none →
      (process_item (fun _ => none) item).data = "" ∧
        (process_item (fun _ => none) item).hora = "") ∧
    process_data (fun _ => none) none = [] ∧
    format_current_precipitation "2024-01-01 10:00:00" "2024-01-01" none =
      Except.ok { cols := [], rows := [] } :=
  c8_normalizer_behavior (fun _ => none) [rawBadItem, rawPlainItem]
    "2024-01-01 10:00:00" "2024-01-01"

/-- Claim C9 (counterexample): one unparseable section makes the loader
discard the whole existing dataset — the other section's prior data is not
available to the merge, contradicting the claimed single-section isolation. -/
theorem c9_counterexample :
    load_existing (FileState.present
        [("Dados_Diarios", some exDaily), ("Previsao_Precipitacao", none)]) = [] ∧
    lookupTable "Dados_Diarios"
        (load_existing (FileState.present
          [("Dados_Diarios", some exDaily), ("Previsao_Precipitacao", none)])) = none := by
  exact ⟨rfl, rfl⟩

/-- Claim C9 (amended): loading never fails the cycle — a missing file is
treated as no prior data and the cycle stores the new tables as a first
run; but a parse failure in any section discards the whole existing dataset
(every table treated as absent), after which the cycle likewise proceeds
from empty; when every section parses, all of them are available. -/
theorem c9_load_error_handling :
    (∀ N, save_precipitation_data FileState.absent N =
        N.filter (fun p => !p.2.rows.isEmpty)) ∧
    (∀ secs N, (∃ p ∈ secs, p.2 = none) →
      load_existing (FileState.present secs) = [] ∧
      save_precipitation_data (FileState.present secs) N =
        N.filter (fun p => !p.2.rows.isEmpty)) ∧
    (∀ secs : List (String × Option Table), (∀ p ∈ secs, p.2.isSome = true) →
      load_existing (FileState.present secs) =
        secs.filterMap (fun p => p.2.map (fun t => (p.1, t)))) := by
  refine ⟨fun N => rfl, ?_, ?_⟩
  · intro secs N hbad
    have hall : secs.all (fun p => p.2.isSome) = false := by
      rw [List.all_eq_false]
      obtain ⟨p, hp, hnone⟩ := hbad
      exact ⟨p, hp, by simp [hnone]⟩
    have hload : load_existing (FileState.present secs) = [] := by
      simp only [load_existing]
      rw [if_neg (by simp [hall])]
    refine ⟨hload, ?_⟩
    simp only [save_precipitation_data, hload, combine_data_nil]
  · intro secs hall
    simp only [load_existing]
    rw [if_pos (List.all_eq_true.mpr hall)]

/-- Witness for claim C9 (amended) at a concrete two-section file with one
unparseable section. -/
theorem c9_witness :
    load_existing (FileState.present
        [("Dados_Diarios", some exDaily), ("Previsao_Precipitacao", none)]) = [] ∧
    save_precipitation_data
        (FileState.present
          [("Dados_Diarios", some exDaily), ("Previsao_Precipitacao", none)])
        [("Dados_Diarios", ntDaily)] =
      [("Dados_Diarios", ntDaily)].filter (fun p => !p.2.rows.isEmpty) :=
  c9_load_error_handling.2.1
    [("Dados_Diarios", some exDaily), ("Previsao_Precipitacao", none)]
    [("Dados_Diarios", ntDaily)]
    ⟨("Previsao_Precipitacao", none), by decide, rfl⟩

/-- Claim C10: in the AccuWeather path, if every newly processed record's
timestamp already occurs in the existing stored table, `save_to_excel`
returns `False` before any write; it likewise returns `False` without
writing when the new-record list is empty. -/
theorem c10_no_write_on_duplicates (existing newData : List AccuRecord)
    (hdup : ∀ r ∈ newData, ∃ e ∈ existing, accu_key e = accu_key r) :
    save_to_excel (AccuFile.present existing) newData = (false, none) ∧
    (∀ fs, save_to_excel fs [] = (false, none)) := by
  constructor
  · by_cases hemp : newData.isEmpty = true
    · simp only [save_to_excel, if_pos hemp]
    · simp only [save_to_excel, if_neg hemp]
      have hfilt : newData.filter
          (fun r => !(existing.any (fun e => accu_key e == accu_key r))) = [] := by
        rw [List.filter_eq_nil_iff]
        intro r hr
        obtain ⟨e, he, hk⟩ := hdup r hr
        have hany : existing.any (fun e2 => accu_key e2 == accu_key r) = true :=
          List.any_eq_true.mpr ⟨e, he, by simp [hk]⟩
        simp [hany]
      rw [hfilt]
      rfl
  · intro fs
    rfl

/-- Example stored AccuWeather record. -/
def accuRec1 : AccuRecord :=
  { data := "2024-01-01", hora := "05:00:00", precipitacao_mm := 0,
    umidade_percent := 50, nuvens_percent := 20, condicao_tempo := "Cloudy",
    chance_chuva := 10, HasPrecipitation := false }

/-- Witness for claim C10: one already-stored record refetched again. -/
theorem c10_witness :
    save_to_excel (AccuFile.present [accuRec1]) [accuRec1] = (false, none) ∧
    save_to_excel AccuFile.absent [] = (false, none) := by
  have h := c10_no_write_on_duplicates [accuRec1] [accuRec1]
    (by
      intro r hr
      have hr2 : r = accuRec1 := by simpa using hr
      exact ⟨accuRec1, by simp, by rw [hr2]⟩)
  exact ⟨h.1, h.2 AccuFile.absent⟩
